import Mathlib

/-!
Shallow embedding of `Source/Engine/Scene/AttributeAnimation.cpp` (Urho3D),
the keyframe-curve sampler: keyframe/event tracks, linear and spline
interpolation, and the lazily rebuilt spline-tangent cache.
Floats are modelled as rationals; the `M_INFINITY` time sentinels as an
extended-time type; `Variant` as a tagged union over the value kinds the
animation code touches, with `Variant.none` doubling as `Variant::EMPTY`.
Out-of-bounds container accesses are modelled by `Option`.
-/

namespace Urho3D

/-- Value kinds used by the animation code (`VariantType` in the source;
the spec's `ValueKind`, with `none` playing `VAR_NONE`/Unset). -/
inductive VariantType where
  | none
  | float
  | vector2
  | vector3
  | vector4
  | quaternion
  | color
  | intRect
  | intVector2
deriving DecidableEq

/-- Tagged value union (`Variant` restricted to the kinds the animation code
touches). Components are rationals (for floats) or integers (for the integer
kinds); `Variant.none` doubles as the empty sentinel `Variant::EMPTY`, whose
type is `VAR_NONE`. -/
inductive Variant where
  | none
  | float (x : ℚ)
  | vector2 (x y : ℚ)
  | vector3 (x y z : ℚ)
  | vector4 (x y z w : ℚ)
  | quaternion (w x y z : ℚ)
  | color (r g b a : ℚ)
  | intRect (l t r b : ℤ)
  | intVector2 (x y : ℤ)
deriving DecidableEq

/-- Kind discriminant of a value (`Variant::GetType`). -/
def Variant.getType : Variant → VariantType
  | .none => .none
  | .float _ => .float
  | .vector2 _ _ => .vector2
  | .vector3 _ _ _ => .vector3
  | .vector4 _ _ _ _ => .vector4
  | .quaternion _ _ _ _ => .quaternion
  | .color _ _ _ _ => .color
  | .intRect _ _ _ _ => .intRect
  | .intVector2 _ _ => .intVector2

/-- Modelled from the spec: typed getter of the external variant-value
abstraction (`Variant::GetFloat`); a mismatched get yields the default. -/
def Variant.getFloat : Variant → ℚ
  | .float x => x
  | _ => 0

/-- Modelled from the spec: typed getter (`Variant::GetVector2`). -/
def Variant.getVector2 : Variant → ℚ × ℚ
  | .vector2 x y => (x, y)
  | _ => (0, 0)

/-- Modelled from the spec: typed getter (`Variant::GetVector3`). -/
def Variant.getVector3 : Variant → ℚ × ℚ × ℚ
  | .vector3 x y z => (x, y, z)
  | _ => (0, 0, 0)

/-- Modelled from the spec: typed getter (`Variant::GetVector4`). -/
def Variant.getVector4 : Variant → ℚ × ℚ × ℚ × ℚ
  | .vector4 x y z w => (x, y, z, w)
  | _ => (0, 0, 0, 0)

/-- Modelled from the spec: typed getter (`Variant::GetQuaternion`),
components in (w, x, y, z) order. -/
def Variant.getQuaternion : Variant → ℚ × ℚ × ℚ × ℚ
  | .quaternion w x y z => (w, x, y, z)
  | _ => (0, 0, 0, 0)

/-- Modelled from the spec: typed getter (`Variant::GetColor`). -/
def Variant.getColor : Variant → ℚ × ℚ × ℚ × ℚ
  | .color r g b a => (r, g, b, a)
  | _ => (0, 0, 0, 0)

/-- Modelled from the spec: typed getter (`Variant::GetIntRect`),
components in (left, top, right, bottom) order. -/
def Variant.getIntRect : Variant → ℤ × ℤ × ℤ × ℤ
  | .intRect l t r b => (l, t, r, b)
  | _ => (0, 0, 0, 0)

/-- Modelled from the spec: typed getter (`Variant::GetIntVector2`). -/
def Variant.getIntVector2 : Variant → ℤ × ℤ
  | .intVector2 x y => (x, y)
  | _ => (0, 0)

/-- Modelled from the spec: the scalar linear blend `Lerp(a, b, u) =
a*(1-u) + b*u` of the external math helpers. -/
def lerpQ (a b u : ℚ) : ℚ := a * (1 - u) + b * u

/-- Modelled from the spec: the C float-to-int cast truncates toward zero
(used by the integer-kind truncating blend). -/
def truncQ (q : ℚ) : ℤ := q.num.tdiv (q.den : ℤ)

/-- Modelled from the spec: Rotation uses spherical blending for the linear
method (`Quaternion::Slerp`, outside this repository slice). The spherical
blend's closed form is transcendental and no claim evaluates a rotation
blend numerically, so it is modelled as a componentwise blend carrying the
Rotation kind. -/
def slerpQuat (q1 q2 : ℚ × ℚ × ℚ × ℚ) (u : ℚ) : ℚ × ℚ × ℚ × ℚ :=
  (lerpQ q1.1 q2.1 u, lerpQ q1.2.1 q2.2.1 u, lerpQ q1.2.2.1 q2.2.2.1 u,
    lerpQ q1.2.2.2 q2.2.2.2 u)

/-- Per-kind linear blend, keyed on the track kind
(`AttributeAnimation::LinearInterpolation(const Variant&, const Variant&, float)`).
Vector/color componentwise blends are modelled from the spec (the classes
live outside this slice); the integer kinds use the truncating blend written
inline in the source; the default branch logs and returns `Variant::EMPTY`. -/
def linearInterpolationVal (vt : VariantType) (v1 v2 : Variant) (u : ℚ) : Variant :=
  match vt with
  | .float => .float (lerpQ v1.getFloat v2.getFloat u)
  | .vector2 =>
      let a := v1.getVector2
      let b := v2.getVector2
      .vector2 (lerpQ a.1 b.1 u) (lerpQ a.2 b.2 u)
  | .vector3 =>
      let a := v1.getVector3
      let b := v2.getVector3
      .vector3 (lerpQ a.1 b.1 u) (lerpQ a.2.1 b.2.1 u) (lerpQ a.2.2 b.2.2 u)
  | .vector4 =>
      let a := v1.getVector4
      let b := v2.getVector4
      .vector4 (lerpQ a.1 b.1 u) (lerpQ a.2.1 b.2.1 u) (lerpQ a.2.2.1 b.2.2.1 u)
        (lerpQ a.2.2.2 b.2.2.2 u)
  | .quaternion =>
      let q := slerpQuat v1.getQuaternion v2.getQuaternion u
      .quaternion q.1 q.2.1 q.2.2.1 q.2.2.2
  | .color =>
      let a := v1.getColor
      let b := v2.getColor
      .color (lerpQ a.1 b.1 u) (lerpQ a.2.1 b.2.1 u) (lerpQ a.2.2.1 b.2.2.1 u)
        (lerpQ a.2.2.2 b.2.2.2 u)
  | .intRect =>
      let a := v1.getIntRect
      let b := v2.getIntRect
      .intRect (truncQ ((a.1 : ℚ) * (1 - u) + (b.1 : ℚ) * u))
        (truncQ ((a.2.1 : ℚ) * (1 - u) + (b.2.1 : ℚ) * u))
        (truncQ ((a.2.2.1 : ℚ) * (1 - u) + (b.2.2.1 : ℚ) * u))
        (truncQ ((a.2.2.2 : ℚ) * (1 - u) + (b.2.2.2 : ℚ) * u))
  | .intVector2 =>
      let a := v1.getIntVector2
      let b := v2.getIntVector2
      .intVector2 (truncQ ((a.1 : ℚ) * (1 - u) + (b.1 : ℚ) * u))
        (truncQ ((a.2 : ℚ) * (1 - u) + (b.2 : ℚ) * u))
  | .none => Variant.none

/-- Per-kind `(value1 - value2) * t`
(`AttributeAnimation::SubstractAndMultiply`); kinds outside the six
arithmetic ones log and return `Variant::EMPTY`. Componentwise subtraction
and scaling of the external vector/quaternion/color classes is modelled
from the spec. -/
def substractAndMultiply (vt : VariantType) (v1 v2 : Variant) (t : ℚ) : Variant :=
  match vt with
  | .float => .float ((v1.getFloat - v2.getFloat) * t)
  | .vector2 =>
      let a := v1.getVector2
      let b := v2.getVector2
      .vector2 ((a.1 - b.1) * t) ((a.2 - b.2) * t)
  | .vector3 =>
      let a := v1.getVector3
      let b := v2.getVector3
      .vector3 ((a.1 - b.1) * t) ((a.2.1 - b.2.1) * t) ((a.2.2 - b.2.2) * t)
  | .vector4 =>
      let a := v1.getVector4
      let b := v2.getVector4
      .vector4 ((a.1 - b.1) * t) ((a.2.1 - b.2.1) * t) ((a.2.2.1 - b.2.2.1) * t)
        ((a.2.2.2 - b.2.2.2) * t)
  | .quaternion =>
      let a := v1.getQuaternion
      let b := v2.getQuaternion
      .quaternion ((a.1 - b.1) * t) ((a.2.1 - b.2.1) * t) ((a.2.2.1 - b.2.2.1) * t)
        ((a.2.2.2 - b.2.2.2) * t)
  | .color =>
      let a := v1.getColor
      let b := v2.getColor
      .color ((a.1 - b.1) * t) ((a.2.1 - b.2.1) * t) ((a.2.2.1 - b.2.2.1) * t)
        ((a.2.2.2 - b.2.2.2) * t)
  | _ => Variant.none

/-- Cubic-Hermite spline evaluation, the tail of
`AttributeAnimation::SplineInterpolation` after the tangent lookups: basis
`h1..h4` then the per-kind weighted sum `v1*h1 + v2*h2 + t1*h3 + t2*h4`;
kinds outside the six arithmetic ones log and return `Variant::EMPTY`. -/
def splineEval (vt : VariantType) (v1 v2 tan1 tan2 : Variant) (t : ℚ) : Variant :=
  let tt := t * t
  let ttt := t * tt
  let h1 := 2 * ttt - 3 * tt + 1
  let h2 := -2 * ttt + 3 * tt
  let h3 := ttt - 2 * tt + t
  let h4 := ttt - tt
  match vt with
  | .float =>
      .float (v1.getFloat * h1 + v2.getFloat * h2 + tan1.getFloat * h3 +
        tan2.getFloat * h4)
  | .vector2 =>
      let a := v1.getVector2
      let b := v2.getVector2
      let c := tan1.getVector2
      let d := tan2.getVector2
      .vector2 (a.1 * h1 + b.1 * h2 + c.1 * h3 + d.1 * h4)
        (a.2 * h1 + b.2 * h2 + c.2 * h3 + d.2 * h4)
  | .vector3 =>
      let a := v1.getVector3
      let b := v2.getVector3
      let c := tan1.getVector3
      let d := tan2.getVector3
      .vector3 (a.1 * h1 + b.1 * h2 + c.1 * h3 + d.1 * h4)
        (a.2.1 * h1 + b.2.1 * h2 + c.2.1 * h3 + d.2.1 * h4)
        (a.2.2 * h1 + b.2.2 * h2 + c.2.2 * h3 + d.2.2 * h4)
  | .vector4 =>
      let a := v1.getVector4
      let b := v2.getVector4
      let c := tan1.getVector4
      let d := tan2.getVector4
      .vector4 (a.1 * h1 + b.1 * h2 + c.1 * h3 + d.1 * h4)
        (a.2.1 * h1 + b.2.1 * h2 + c.2.1 * h3 + d.2.1 * h4)
        (a.2.2.1 * h1 + b.2.2.1 * h2 + c.2.2.1 * h3 + d.2.2.1 * h4)
        (a.2.2.2 * h1 + b.2.2.2 * h2 + c.2.2.2 * h3 + d.2.2.2 * h4)
  | .quaternion =>
      let a := v1.getQuaternion
      let b := v2.getQuaternion
      let c := tan1.getQuaternion
      let d := tan2.getQuaternion
      .quaternion (a.1 * h1 + b.1 * h2 + c.1 * h3 + d.1 * h4)
        (a.2.1 * h1 + b.2.1 * h2 + c.2.1 * h3 + d.2.1 * h4)
        (a.2.2.1 * h1 + b.2.2.1 * h2 + c.2.2.1 * h3 + d.2.2.1 * h4)
        (a.2.2.2 * h1 + b.2.2.2 * h2 + c.2.2.2 * h3 + d.2.2.2 * h4)
  | .color =>
      let a := v1.getColor
      let b := v2.getColor
      let c := tan1.getColor
      let d := tan2.getColor
      .color (a.1 * h1 + b.1 * h2 + c.1 * h3 + d.1 * h4)
        (a.2.1 * h1 + b.2.1 * h2 + c.2.1 * h3 + d.2.1 * h4)
        (a.2.2.1 * h1 + b.2.2.1 * h2 + c.2.2.1 * h3 + d.2.2.1 * h4)
        (a.2.2.2 * h1 + b.2.2.2 * h2 + c.2.2.2 * h3 + d.2.2.2 * h4)
  | _ => Variant.none

/-- Extended time for the `beginTime_`/`endTime_` bounds, whose empty
sentinels are `M_INFINITY` and `-M_INFINITY`. -/
inductive XTime where
  | negInf
  | fin (t : ℚ)
  | posInf
deriving DecidableEq

/-- The update `beginTime_ = Min(time, beginTime_)` with a finite new time
(`Min(lhs, rhs)` is the ternary `lhs < rhs ? lhs : rhs`). -/
def XTime.minWith (t : ℚ) : XTime → XTime
  | .negInf => .negInf
  | .fin s => .fin (if t < s then t else s)
  | .posInf => .fin t

/-- The update `endTime_ = Max(time, endTime_)` with a finite new time
(`Max(lhs, rhs)` is the ternary `lhs > rhs ? lhs : rhs`). -/
def XTime.maxWith (t : ℚ) : XTime → XTime
  | .negInf => .fin t
  | .fin s => .fin (if s < t then t else s)
  | .posInf => .posInf

/-- One keyframe (`AttributeKeyFrame`). -/
structure AttributeKeyFrame where
  time : ℚ
  value : Variant
deriving DecidableEq

/-- One event frame (`AttributeEventFrame`); the event type is a `StringHash`
value and the payload a `VariantMap`, modelled as a hash/value association
list (the payload never influences the animation logic). -/
structure AttributeEventFrame where
  time : ℚ
  eventType : ℕ
  eventData : List (ℕ × Variant)
deriving DecidableEq

/-- Interpolation method (`IM_LINEAR` / `IM_SPLINE`). -/
inductive InterpolationMethod where
  | linear
  | spline
deriving DecidableEq

/-- Mutable state of one `AttributeAnimation` (the Curve facade): kind,
method, tension, the keyframe and event tracks, the time bounds and the
spline-tangent cache with its dirty flag. -/
structure AttributeAnimation where
  interpolationMethod : InterpolationMethod
  valueType : VariantType
  isInterpolatable : Bool
  beginTime : XTime
  endTime : XTime
  splineTension : ℚ
  splineTangentsDirty : Bool
  keyFrames : List AttributeKeyFrame
  eventFrames : List AttributeEventFrame
  splineTangents : List Variant
deriving DecidableEq

/-- Freshly constructed animation (the constructor's initializer list). -/
def attributeAnimationInit : AttributeAnimation :=
  { interpolationMethod := .linear
    valueType := .none
    isInterpolatable := false
    beginTime := .posInf
    endTime := .negInf
    splineTension := 1 / 2
    splineTangentsDirty := false
    keyFrames := []
    eventFrames := []
    splineTangents := [] }

/-- The insertion scan shared by `SetKeyFrame` and `SetEventFrame`: walk
forward and insert the new entry before the first element whose time is
strictly greater; if no element is strictly greater the loop ends without
inserting (in the source this case is unreachable because the scan only
runs when the back element's time is strictly greater). `τ` projects the
time out of an entry. -/
def scanIns {α : Type} (τ : α → ℚ) (x : α) : List α → List α
  | [] => []
  | y :: ys => if τ x < τ y then x :: y :: ys else y :: scanIns τ x ys

/-- Time-ordered insertion (`SetKeyFrame`/`SetEventFrame` placement): push
at the back when the sequence is empty or the new time is at least the back
entry's time, else run the forward scan. -/
def insertByTime {α : Type} (τ : α → ℚ) (x : α) (l : List α) : List α :=
  match l.getLast? with
  | Option.none => l ++ [x]
  | Option.some b => if τ b ≤ τ x then l ++ [x] else scanIns τ x l

/-- Kind change (`AttributeAnimation::SetValueType`): no-op on the same
kind; otherwise store the kind, recompute interpolatability, force the
Linear method for the integer kinds, clear the keyframes and reset the time
bounds to the empty sentinels. The tangent cache and its dirty flag are not
touched. -/
def setValueType (a : AttributeAnimation) (vt : VariantType) : AttributeAnimation :=
  if vt = a.valueType then a
  else
    let interp : Bool := decide (vt = .float) || decide (vt = .vector2) ||
      decide (vt = .vector3) || decide (vt = .vector4) ||
      decide (vt = .quaternion) || decide (vt = .color)
    let forced : Bool := decide (vt = .intRect) || decide (vt = .intVector2)
    { a with
      valueType := vt
      isInterpolatable := if forced then true else interp
      interpolationMethod := if forced then .linear else a.interpolationMethod
      keyFrames := []
      beginTime := .posInf
      endTime := .negInf }

/-- Method change (`AttributeAnimation::SetInterpolationMethod`): no-op on
the same method; otherwise force Linear for the integer kinds, store the
method and mark the tangent cache dirty. -/
def setInterpolationMethod (a : AttributeAnimation) (method : InterpolationMethod) :
    AttributeAnimation :=
  if method = a.interpolationMethod then a
  else
    let m := if a.valueType = .intRect ∨ a.valueType = .intVector2 then
      InterpolationMethod.linear else method
    { a with interpolationMethod := m, splineTangentsDirty := true }

/-- Tension change (`AttributeAnimation::SetSplineTension`). -/
def setSplineTension (a : AttributeAnimation) (tension : ℚ) : AttributeAnimation :=
  { a with splineTension := tension, splineTangentsDirty := true }

/-- The successful tail of `SetKeyFrame`: update the time bounds, place the
keyframe, mark the tangent cache dirty. -/
def setKeyFrameInsert (a : AttributeAnimation) (time : ℚ) (value : Variant) :
    AttributeAnimation :=
  { a with
    beginTime := XTime.minWith time a.beginTime
    endTime := XTime.maxWith time a.endTime
    keyFrames := insertByTime AttributeKeyFrame.time ⟨time, value⟩ a.keyFrames
    splineTangentsDirty := true }

/-- Keyframe insertion (`AttributeAnimation::SetKeyFrame`): an Unset track
infers its kind from the value; a typed track rejects a value of another
kind, returning failure with the state untouched. -/
def setKeyFrame (a : AttributeAnimation) (time : ℚ) (value : Variant) :
    Bool × AttributeAnimation :=
  if a.valueType = VariantType.none then
    (true, setKeyFrameInsert (setValueType a value.getType) time value)
  else if value.getType ≠ a.valueType then
    (false, a)
  else
    (true, setKeyFrameInsert a time value)

/-- Event insertion (`AttributeAnimation::SetEventFrame`): always succeeds,
same placement rule as keyframes. -/
def setEventFrame (a : AttributeAnimation) (time : ℚ) (eventType : ℕ)
    (eventData : List (ℕ × Variant)) : AttributeAnimation :=
  { a with
    eventFrames := insertByTime AttributeEventFrame.time
      ⟨time, eventType, eventData⟩ a.eventFrames }

/-- Validity check (`AttributeAnimation::IsValid`): Linear needs more than
one keyframe, Spline more than two. -/
def isValid (a : AttributeAnimation) : Bool :=
  decide ((a.interpolationMethod = .linear ∧ 1 < a.keyFrames.length) ∨
    (a.interpolationMethod = .spline ∧ 2 < a.keyFrames.length))

/-- Event-range query (`AttributeAnimation::GetEventFrames`): scan in
order, stop at the first entry with time at or beyond `e`, collect entries
with time at or beyond `b`. -/
def getEventFrames (l : List AttributeEventFrame) (b e : ℚ) :
    List AttributeEventFrame :=
  match l with
  | [] => []
  | f :: fs =>
      if e ≤ f.time then []
      else (if b ≤ f.time then [f] else []) ++ getEventFrames fs b e

/-- The body of the bracket search loop of `UpdateAttributeValue`: walk the
keyframes from position `i` (given as the suffix `ks` of the sequence) and
return the first index whose keyframe time is strictly greater than `t`, or
the index one past the walked suffix when none is. -/
def bracketScan (t : ℚ) : List AttributeKeyFrame → ℕ → ℕ
  | [], i => i
  | k :: ks, i => if t < k.time then i else bracketScan t ks (i + 1)

/-- The bracket search of `UpdateAttributeValue`: the loop starts at
index 1, so it walks the suffix of the keyframes after the first. -/
def bracketIndexFrom (l : List AttributeKeyFrame) (t : ℚ) (i : ℕ) : ℕ :=
  bracketScan t (l.drop i) i

/-- Tangent-cache rebuild (`AttributeAnimation::UpdateSplineTangents`):
clear, bail out on an invalid track, else build one tangent per keyframe —
interior index `i` gets `(keyframe[i+1].value - keyframe[i-1].value) *
tension`, both endpoints the degenerate `(keyframe[0].value -
keyframe[0].value) * tension` — and reset the dirty flag. The source
resizes and writes the entries in place; since the interior loop never
touches the endpoint slots, the resulting array equals this direct
per-index construction. -/
def updateSplineTangents (a : AttributeAnimation) : AttributeAnimation :=
  if isValid a = false then { a with splineTangents := [] }
  else
    let size := a.keyFrames.length
    let kfVal : ℕ → Variant := fun i =>
      (Option.map AttributeKeyFrame.value a.keyFrames[i]?).getD Variant.none
    let tans := List.ofFn (fun i : Fin size =>
      if i.val = 0 ∨ i.val = size - 1 then
        substractAndMultiply a.valueType (kfVal 0) (kfVal 0) a.splineTension
      else
        substractAndMultiply a.valueType (kfVal (i.val + 1)) (kfVal (i.val - 1))
          a.splineTension)
    { a with splineTangents := tans, splineTangentsDirty := false }

/-- Index-based linear interpolation
(`AttributeAnimation::LinearInterpolation(unsigned, unsigned, float)`):
fetch the two keyframes, compute the local parameter, blend; `Option.none`
models an out-of-bounds keyframe access. -/
def linearInterpolationIdx (a : AttributeAnimation) (i1 i2 : ℕ) (scaledTime : ℚ) :
    Option Variant :=
  match a.keyFrames[i1]?, a.keyFrames[i2]? with
  | Option.some k1, Option.some k2 =>
      Option.some (linearInterpolationVal a.valueType k1.value k2.value
        ((scaledTime - k1.time) / (k2.time - k1.time)))
  | _, _ => Option.none

/-- Spline interpolation (`AttributeAnimation::SplineInterpolation`):
rebuild the tangent cache when dirty, fetch the two keyframes and the two
tangents, evaluate the Hermite blend; `Option.none` models an out-of-bounds
keyframe or tangent access. Returns the possibly rebuilt state. -/
def splineInterpolation (a0 : AttributeAnimation) (i1 i2 : ℕ) (scaledTime : ℚ) :
    Option Variant × AttributeAnimation :=
  let a := if a0.splineTangentsDirty then updateSplineTangents a0 else a0
  match a.keyFrames[i1]?, a.keyFrames[i2]?, a.splineTangents[i1]?,
      a.splineTangents[i2]? with
  | Option.some k1, Option.some k2, Option.some tan1, Option.some tan2 =>
      (Option.some (splineEval a.valueType k1.value k2.value tan1 tan2
        ((scaledTime - k1.time) / (k2.time - k1.time))), a)
  | _, _, _, _ => (Option.none, a)

/-- One sample (`AttributeAnimation::UpdateAttributeValue`): bracket search
from index 1; past the end or on a non-interpolatable kind, hold the
left-bracket keyframe's raw value; else dispatch on the method. The first
component is the value handed to `OnSetAttribute` (`Option.none` models an
out-of-bounds access), the second the possibly rebuilt state. -/
def updateAttributeValue (a : AttributeAnimation) (scaledTime : ℚ) :
    Option Variant × AttributeAnimation :=
  let index := bracketIndexFrom a.keyFrames scaledTime 1
  if a.keyFrames.length ≤ index ∨ a.isInterpolatable = false then
    (Option.map AttributeKeyFrame.value a.keyFrames[index - 1]?, a)
  else if a.interpolationMethod = .linear then
    (linearInterpolationIdx a (index - 1) index scaledTime, a)
  else
    splineInterpolation a (index - 1) index scaledTime

/-- Fold a list of `SetKeyFrame` calls over a state (successful or not,
the source's return value is ignored by callers such as `LoadXML`). -/
def applyKeyOps (a : AttributeAnimation) : List (ℚ × Variant) → AttributeAnimation
  | [] => a
  | (t, v) :: rest => applyKeyOps (setKeyFrame a t v).2 rest

/-- Fold a list of `SetEventFrame` calls over a state. -/
def applyEventOps (a : AttributeAnimation) :
    List (ℚ × ℕ × List (ℕ × Variant)) → AttributeAnimation
  | [] => a
  | (t, ty, d) :: rest => applyEventOps (setEventFrame a t ty d) rest

/-- Zero value of a kind, following the spec's words ("the zero value of
the track's kind"): the value of that kind with all components zero. This
is a spec-side definition, used to compare the rebuilt endpoint tangents
against the spec's description. -/
def zeroValueOf : VariantType → Variant
  | .none => Variant.none
  | .float => .float 0
  | .vector2 => .vector2 0 0
  | .vector3 => .vector3 0 0 0
  | .vector4 => .vector4 0 0 0 0
  | .quaternion => .quaternion 0 0 0 0
  | .color => .color 0 0 0 0
  | .intRect => .intRect 0 0 0 0
  | .intVector2 => .intVector2 0 0

/-- The six kinds covered by the per-kind subtract/scale and spline
switches of the source (every other kind falls to the `LOGERROR` default
branch there). -/
def hasInterpArithmetic : VariantType → Bool
  | .float => true
  | .vector2 => true
  | .vector3 => true
  | .vector4 => true
  | .quaternion => true
  | .color => true
  | _ => false

/-! Concrete states used by the examples below, each reachable through the
public mutators from a freshly constructed animation. -/

/-- Float track (0 → 0), (1 → 10), Linear (the spec's linear example). -/
def trackFloat01 : AttributeAnimation :=
  { interpolationMethod := .linear
    valueType := .float
    isInterpolatable := true
    beginTime := .fin 0
    endTime := .fin 1
    splineTension := 1 / 2
    splineTangentsDirty := true
    keyFrames := [⟨0, .float 0⟩, ⟨1, .float 10⟩]
    eventFrames := []
    splineTangents := [] }

/-- Float track with the single keyframe (1 → 10). -/
def trackFloatOne : AttributeAnimation :=
  applyKeyOps attributeAnimationInit [(1, .float 10)]

/-- Float track (1 → 10), (2 → 20), Linear. -/
def trackFloat12 : AttributeAnimation :=
  { interpolationMethod := .linear
    valueType := .float
    isInterpolatable := true
    beginTime := .fin 1
    endTime := .fin 2
    splineTension := 1 / 2
    splineTangentsDirty := true
    keyFrames := [⟨1, .float 10⟩, ⟨2, .float 20⟩]
    eventFrames := []
    splineTangents := [] }

/-- Float track (0 → 0), (2 → 2), (4 → 0) with the Spline method. -/
def trackSplineF : AttributeAnimation :=
  setInterpolationMethod
    (applyKeyOps attributeAnimationInit
      [(0, .float 0), (2, .float 2), (4, .float 0)])
    .spline

/-- The same track after one spline sample has rebuilt the tangent cache. -/
def trackSplineFSampled : AttributeAnimation :=
  (updateAttributeValue trackSplineF 1).2

/-- Rotation (quaternion) track with three keyframes and the Spline method. -/
def trackQuatSpline : AttributeAnimation :=
  setInterpolationMethod
    (applyKeyOps attributeAnimationInit
      [(0, .quaternion 1 0 0 0), (2, .quaternion 0 1 0 0),
        (4, .quaternion 0 0 1 0)])
    .spline

/-- Float track with only two keyframes but the Spline method. -/
def trackSplineTwo : AttributeAnimation :=
  setInterpolationMethod
    (applyKeyOps attributeAnimationInit [(0, .float 0), (2, .float 2)])
    .spline

/-- Event track with events at times 1/2, 1, 2, 3, 4 (the spec's event
query example). -/
def trackEvents : AttributeAnimation :=
  { attributeAnimationInit with
    eventFrames :=
      [⟨1 / 2, 10, []⟩, ⟨1, 11, []⟩, ⟨2, 12, []⟩, ⟨3, 13, []⟩, ⟨4, 14, []⟩] }

/-- IntRect track with three keyframes (kind without spline arithmetic). -/
def trackIntRect : AttributeAnimation :=
  applyKeyOps attributeAnimationInit
    [(0, .intRect 0 0 1 1), (1, .intRect 1 1 2 2), (2, .intRect 0 0 3 3)]

/-! Ordering lemmas for the shared insertion routine. -/

section Insertion

variable {α : Type} (τ : α → ℚ)

/-- Entries of a time-sorted list are bounded by the back entry's time. -/
theorem le_getLast_of_pairwise {l : List α} {b : α}
    (hl : l.Pairwise (fun u v => τ u ≤ τ v)) (hb : l.getLast? = Option.some b) :
    ∀ y ∈ l, τ y ≤ τ b := by
  induction l with
  | nil => simp at hb
  | cons z zs ih =>
    intro y hy
    cases zs with
    | nil =>
        simp at hb
        simp at hy
        subst hb
        subst hy
        exact le_refl _
    | cons w ws =>
        rw [List.getLast?_cons_cons] at hb
        rcases List.mem_cons.mp hy with rfl | hy
        · have hbw : b ∈ w :: ws := List.mem_of_mem_getLast? (by simp [hb])
          exact (List.pairwise_cons.mp hl).1 b hbw
        · exact ih (List.pairwise_cons.mp hl).2 hb y hy

/-- The forward scan inserts the new entry after every entry whose time is
at most the new time and before the first strictly later entry, provided
some strictly later entry exists. -/
theorem scanIns_eq_takeWhile {x : α} {l : List α} (h : ∃ y ∈ l, τ x < τ y) :
    scanIns τ x l =
      l.takeWhile (fun y => decide (τ y ≤ τ x)) ++
        x :: l.dropWhile (fun y => decide (τ y ≤ τ x)) := by
  induction l with
  | nil => simp at h
  | cons y ys ih =>
    by_cases hxy : τ x < τ y
    · simp [scanIns, hxy, List.takeWhile_cons, List.dropWhile_cons, not_le.mpr hxy]
    · have hyx : τ y ≤ τ x := le_of_not_lt hxy
      have h' : ∃ z ∈ ys, τ x < τ z := by
        rcases h with ⟨z, hz, hlt⟩
        rcases List.mem_cons.mp hz with rfl | hz
        · exact absurd hlt hxy
        · exact ⟨z, hz, hlt⟩
      simp [scanIns, hxy, List.takeWhile_cons, List.dropWhile_cons, hyx, ih h']

/-- On a time-sorted list, the insertion routine places the new entry after
all entries whose time is at most the new time (in particular after all
equal-time entries) and before the first strictly later entry; the
back-push fast path agrees with this description. -/
theorem insertByTime_eq_takeWhile {x : α} {l : List α}
    (hl : l.Pairwise (fun u v => τ u ≤ τ v)) :
    insertByTime τ x l =
      l.takeWhile (fun y => decide (τ y ≤ τ x)) ++
        x :: l.dropWhile (fun y => decide (τ y ≤ τ x)) := by
  unfold insertByTime
  cases hb : l.getLast? with
  | none =>
      have : l = [] := List.getLast?_eq_none_iff.mp hb
      subst this
      simp
  | some b =>
      by_cases hbx : τ b ≤ τ x
      · have hall : ∀ y ∈ l, decide (τ y ≤ τ x) = true := by
          intro y hy
          exact decide_eq_true ((le_getLast_of_pairwise τ hl hb y hy).trans hbx)
        simp only [hbx, if_pos]
        rw [List.takeWhile_eq_self_iff.mpr hall, List.dropWhile_eq_nil_iff.mpr ?_]
        intro y hy
        exact hall y hy
      · have hxb : τ x < τ b := lt_of_not_le hbx
        have hbmem : b ∈ l := List.mem_of_mem_getLast? (by simp [hb])
        simp only [hbx, if_neg, if_false]
        exact scanIns_eq_takeWhile τ ⟨b, hbmem, hxb⟩

/-- Entries surviving the drop of the at-most-`τ x` prefix of a sorted list
have time at least `τ x`. -/
theorem dropWhile_ge {x : α} {l : List α}
    (hl : l.Pairwise (fun u v => τ u ≤ τ v)) :
    ∀ y ∈ l.dropWhile (fun y => decide (τ y ≤ τ x)), τ x ≤ τ y := by
  induction l with
  | nil => simp
  | cons z zs ih =>
    rcases List.pairwise_cons.mp hl with ⟨hz, hzs⟩
    by_cases hzx : τ z ≤ τ x
    · intro y hy
      rw [List.dropWhile_cons, if_pos (by simpa using hzx)] at hy
      exact ih hzs y hy
    · intro y hy
      rw [List.dropWhile_cons, if_neg (by simpa using hzx)] at hy
      rcases List.mem_cons.mp hy with rfl | hy
      · exact le_of_lt (lt_of_not_le hzx)
      · exact (le_of_lt (lt_of_not_le hzx)).trans (hz y hy)

/-- Inserting into a time-sorted list keeps it time-sorted. -/
theorem insertByTime_pairwise {x : α} {l : List α}
    (hl : l.Pairwise (fun u v => τ u ≤ τ v)) :
    (insertByTime τ x l).Pairwise (fun u v => τ u ≤ τ v) := by
  rw [insertByTime_eq_takeWhile τ hl]
  rw [List.pairwise_append]
  refine ⟨hl.sublist (List.takeWhile_sublist _), ?_, ?_⟩
  · rw [List.pairwise_cons]
    exact ⟨dropWhile_ge τ hl, hl.sublist (List.dropWhile_sublist _)⟩
  · intro u hu v hv
    have hux : τ u ≤ τ x := by simpa using List.mem_takeWhile_imp hu
    rcases List.mem_cons.mp hv with rfl | hv
    · exact hux
    · exact hux.trans (dropWhile_ge τ hl v hv)

end Insertion

/-! The concrete states written as record literals are reachable through
the public mutators from a freshly constructed animation. -/

theorem trackFloat01_reachable :
    trackFloat01 =
      applyKeyOps attributeAnimationInit [(0, .float 0), (1, .float 10)] := by
  rfl

theorem trackFloat12_reachable :
    trackFloat12 =
      applyKeyOps attributeAnimationInit [(1, .float 10), (2, .float 20)] := by
  rfl

theorem trackEvents_reachable :
    trackEvents =
      applyEventOps attributeAnimationInit
        [(1 / 2, 10, []), (1, 11, []), (2, 12, []), (3, 13, []), (4, 14, [])] := by
  norm_num [trackEvents, applyEventOps, setEventFrame, insertByTime, scanIns,
    attributeAnimationInit]

/-! Lemmas about the bracket search. -/

/-- The bracket scan never returns an index below its start. -/
theorem bracketScan_ge (t : ℚ) :
    ∀ (ks : List AttributeKeyFrame) (j : ℕ), j ≤ bracketScan t ks j := by
  intro ks
  induction ks with
  | nil => intro j; simp [bracketScan]
  | cons k ks ih =>
    intro j
    by_cases h : t < k.time
    · simp [bracketScan, h]
    · simp only [bracketScan, if_neg h]
      exact (Nat.le_succ j).trans (ih (j + 1))

/-- The bracket scan never runs past the end of the walked suffix. -/
theorem bracketScan_le (t : ℚ) :
    ∀ (ks : List AttributeKeyFrame) (j : ℕ), bracketScan t ks j ≤ j + ks.length := by
  intro ks
  induction ks with
  | nil => intro j; simp [bracketScan]
  | cons k ks ih =>
    intro j
    by_cases h : t < k.time
    · simp [bracketScan, h]
    · simp only [bracketScan, if_neg h, List.length_cons]
      exact (ih (j + 1)).trans (by omega)

/-- When no walked keyframe's time is strictly greater than `t`, the scan
runs to the end. -/
theorem bracketScan_all (t : ℚ) :
    ∀ (ks : List AttributeKeyFrame) (j : ℕ), (∀ k ∈ ks, ¬ t < k.time) →
      bracketScan t ks j = j + ks.length := by
  intro ks
  induction ks with
  | nil => intro j _; simp [bracketScan]
  | cons k ks ih =>
    intro j h
    have hk : ¬ t < k.time := h k (by simp)
    simp only [bracketScan, if_neg hk, List.length_cons]
    rw [ih (j + 1) (fun x hx => h x (by simp [hx]))]
    omega

/-- The scan stops exactly at the first position whose time is strictly
greater than `t`. -/
theorem bracketScan_break (t : ℚ) :
    ∀ (ks : List AttributeKeyFrame) (j m : ℕ) (hm : m < ks.length),
      (∀ r, r < m → ∀ hr : r < ks.length, ¬ t < (ks.get ⟨r, hr⟩).time) →
      t < (ks.get ⟨m, hm⟩).time →
      bracketScan t ks j = j + m := by
  intro ks
  induction ks with
  | nil => intro j m hm; simp at hm
  | cons k ks ih =>
    intro j m hm hbefore hbreak
    cases m with
    | zero => simp only [bracketScan, List.get] at hbreak ⊢; simp [hbreak]
    | succ m' =>
        have hk : ¬ t < k.time := hbefore 0 (Nat.succ_pos m') (by simp)
        simp only [bracketScan, if_neg hk]
        have := ih (j + 1) m' (by simpa using Nat.lt_of_succ_lt_succ hm)
          (fun r hr hrlen => hbefore (r + 1) (by omega) (by simpa using Nat.succ_lt_succ hrlen))
          (by simpa using hbreak)
        rw [this]
        omega

/-- On a sorted track, when `t` falls in the bracket `[time(i-1), time(i))`
the search (from index 1) stops exactly at `i`. -/
theorem bracketIndexFrom_inner {l : List AttributeKeyFrame} {t : ℚ} {i : ℕ}
    (hl : l.Pairwise (fun u v => u.time ≤ v.time))
    (h1 : 1 ≤ i) (hi : i < l.length)
    (hle : (l.get ⟨i - 1, by omega⟩).time ≤ t)
    (hlt : t < (l.get ⟨i, hi⟩).time) :
    bracketIndexFrom l t 1 = i := by
  unfold bracketIndexFrom
  have hm : i - 1 < (l.drop 1).length := by simp [List.length_drop]; omega
  have hget : ∀ (r : ℕ) (hr : r < (l.drop 1).length),
      (l.drop 1).get ⟨r, hr⟩ = l.get ⟨r + 1, by simp [List.length_drop] at hr; omega⟩ := by
    intro r hr
    simp [List.getElem_drop, Nat.add_comm]
  rw [bracketScan_break t (l.drop 1) 1 (i - 1) hm ?_ ?_]
  · omega
  · intro r hr hrlen
    rw [hget r hrlen]
    have hmono := List.pairwise_iff_get.mp hl
    rcases Nat.lt_or_ge (r + 1) (i - 1) with hc | hc
    · have := hmono ⟨r + 1, by omega⟩ ⟨i - 1, by omega⟩ hc
      exact not_lt.mpr (this.trans hle)
    · have heq : r + 1 = i - 1 := by omega
      simp only [heq]
      exact not_lt.mpr hle
  · rw [hget (i - 1) hm]
    have heq : i - 1 + 1 = i := by omega
    simp only [heq]
    exact hlt

/-- On a sorted track, when `t` is at or beyond the back keyframe's time
the search (from index 1) runs to the sequence length. -/
theorem bracketIndexFrom_ge_last {l : List AttributeKeyFrame} {t : ℚ}
    {b : AttributeKeyFrame}
    (hl : l.Pairwise (fun u v => u.time ≤ v.time))
    (hb : l.getLast? = Option.some b) (hbt : b.time ≤ t) :
    bracketIndexFrom l t 1 = l.length := by
  unfold bracketIndexFrom
  have hlen : 1 ≤ l.length := by
    have : b ∈ l := List.mem_of_mem_getLast? (by simp [hb])
    exact List.length_pos.mpr (List.ne_nil_of_mem this)
  rw [bracketScan_all t (l.drop 1) 1 ?_]
  · simp [List.length_drop]; omega
  · intro k hk
    have hkl : k ∈ l := List.mem_of_mem_drop hk
    exact not_lt.mpr ((le_getLast_of_pairwise AttributeKeyFrame.time hl hb k hkl).trans hbt)

/-- When `t` lies strictly before the first keyframe's time of a sorted
track, the search (from index 1) stops immediately at index 1. -/
theorem bracketIndexFrom_before_first {k0 : AttributeKeyFrame}
    {rest : List AttributeKeyFrame} {t : ℚ}
    (hl : (k0 :: rest).Pairwise (fun u v => u.time ≤ v.time))
    (hlt : t < k0.time) :
    bracketIndexFrom (k0 :: rest) t 1 = 1 := by
  unfold bracketIndexFrom
  cases rest with
  | nil => simp [bracketScan]
  | cons y ys =>
      have hy : k0.time ≤ y.time := (List.pairwise_cons.mp hl).1 y (by simp)
      simp [bracketScan, hlt.trans_le hy]

/-- Unfolding of the sample when the hold branch is taken. -/
theorem updateAttributeValue_hold {a : AttributeAnimation} {t : ℚ}
    (h : a.keyFrames.length ≤ bracketIndexFrom a.keyFrames t 1 ∨
      a.isInterpolatable = false) :
    updateAttributeValue a t =
      (Option.map AttributeKeyFrame.value
        a.keyFrames[bracketIndexFrom a.keyFrames t 1 - 1]?, a) := by
  simp only [updateAttributeValue]
  rw [if_pos h]

/-- Unfolding of the sample when the linear-interpolation branch is taken. -/
theorem updateAttributeValue_linear {a : AttributeAnimation} {t : ℚ}
    (h : ¬(a.keyFrames.length ≤ bracketIndexFrom a.keyFrames t 1 ∨
      a.isInterpolatable = false))
    (hm : a.interpolationMethod = .linear) :
    updateAttributeValue a t =
      (linearInterpolationIdx a (bracketIndexFrom a.keyFrames t 1 - 1)
        (bracketIndexFrom a.keyFrames t 1) t, a) := by
  simp only [updateAttributeValue]
  rw [if_neg h, if_pos hm]

/-- Unfolding of the sample when the spline-interpolation branch is taken. -/
theorem updateAttributeValue_spline {a : AttributeAnimation} {t : ℚ}
    (h : ¬(a.keyFrames.length ≤ bracketIndexFrom a.keyFrames t 1 ∨
      a.isInterpolatable = false))
    (hm : a.interpolationMethod = .spline) :
    updateAttributeValue a t =
      splineInterpolation a (bracketIndexFrom a.keyFrames t 1 - 1)
        (bracketIndexFrom a.keyFrames t 1) t := by
  simp only [updateAttributeValue]
  rw [if_neg h, if_neg (by simp [hm])]

/-- C1 (corrected): hold semantics at the track boundaries. On a sorted
track, sampling at or beyond the last keyframe's time returns the last
keyframe's stored value unchanged; sampling strictly before the first
keyframe's time returns the first keyframe's value unchanged when the track
is not interpolatable or has a single keyframe (for an interpolatable track
with at least two keyframes such a sample instead interpolates the first
bracket with a negative parameter — see the counterexample). -/
theorem sample_boundary_hold :
    ∀ (a : AttributeAnimation) (t : ℚ) (kLast kFirst : AttributeKeyFrame),
      a.keyFrames.Pairwise (fun u v => u.time ≤ v.time) →
      ((a.keyFrames.getLast? = Option.some kLast → kLast.time ≤ t →
        (updateAttributeValue a t).1 = Option.some kLast.value) ∧
       (a.keyFrames.head? = Option.some kFirst → t < kFirst.time →
        (a.isInterpolatable = false ∨ a.keyFrames.length = 1) →
        (updateAttributeValue a t).1 = Option.some kFirst.value)) := by
  intro a t kLast kFirst hl
  constructor
  · intro hb hbt
    have hidx : bracketIndexFrom a.keyFrames t 1 = a.keyFrames.length :=
      bracketIndexFrom_ge_last hl hb hbt
    rw [updateAttributeValue_hold (Or.inl (le_of_eq hidx.symm))]
    simp only [hidx]
    rw [← List.getLast?_eq_getElem?, hb]
    rfl
  · intro hh hht hdeg
    cases hkf : a.keyFrames with
    | nil => rw [hkf] at hh; simp at hh
    | cons k0 rest =>
        rw [hkf] at hh
        have hk0 : k0 = kFirst := by simpa using hh
        subst hk0
        have hl' : (k0 :: rest).Pairwise (fun u v => u.time ≤ v.time) := by
          rw [hkf] at hl; exact hl
        have hidx : bracketIndexFrom a.keyFrames t 1 = 1 := by
          rw [hkf]; exact bracketIndexFrom_before_first hl' hht
        have hhold : a.keyFrames.length ≤ bracketIndexFrom a.keyFrames t 1 ∨
            a.isInterpolatable = false := by
          rcases hdeg with hni | hone
          · exact Or.inr hni
          · exact Or.inl (by rw [hidx, hone])
        rw [updateAttributeValue_hold hhold]
        simp only [hidx]
        rw [← List.head?_eq_getElem?, hkf]
        rfl

/-- C1 counterexample: on the interpolatable Linear float track with
keyframes (1 → 10) and (2 → 20), sampling at t = 0 — strictly before the
first keyframe — yields 0, the linear extrapolation of the first bracket,
not the first keyframe's stored value 10. -/
theorem sample_before_first_extrapolates :
    trackFloat12.keyFrames.head? = Option.some ⟨1, .float 10⟩ ∧
    (0 : ℚ) < 1 ∧ trackFloat12.isInterpolatable = true ∧
    (updateAttributeValue trackFloat12 0).1 = Option.some (Variant.float 0) ∧
    Variant.float 0 ≠ Variant.float 10 := by
  refine ⟨rfl, by decide, rfl, ?_, by decide⟩
  norm_num [trackFloat12, updateAttributeValue, bracketIndexFrom, bracketScan,
    linearInterpolationIdx, linearInterpolationVal, lerpQ, Variant.getFloat]

/-- C1 witness: the hold branches at concrete inputs — sampling the float
track (0 → 0), (1 → 10) at t = 5 holds the last value 10, and sampling the
one-keyframe track (1 → 10) at t = 0 holds the first value 10. -/
theorem sample_boundary_hold_witness :
    (updateAttributeValue trackFloat01 5).1 = Option.some (Variant.float 10) ∧
    (updateAttributeValue trackFloatOne 0).1 = Option.some (Variant.float 10) := by
  constructor
  · exact (sample_boundary_hold trackFloat01 5 ⟨1, .float 10⟩ ⟨1, .float 10⟩
      (by decide)).1 rfl (by decide)
  · exact (sample_boundary_hold trackFloatOne 0 ⟨1, .float 10⟩ ⟨1, .float 10⟩
      (by decide)).2 rfl (by decide) (Or.inr rfl)

/-! Helper facts about the tangent rebuild. -/

/-- The rebuild never touches the keyframes. -/
theorem updateSplineTangents_keyFrames (a : AttributeAnimation) :
    (updateSplineTangents a).keyFrames = a.keyFrames := by
  unfold updateSplineTangents
  by_cases h : isValid a = false
  · rw [if_pos h]
  · rw [if_neg h]

/-- The rebuild never touches the kind. -/
theorem updateSplineTangents_valueType (a : AttributeAnimation) :
    (updateSplineTangents a).valueType = a.valueType := by
  unfold updateSplineTangents
  by_cases h : isValid a = false
  · rw [if_pos h]
  · rw [if_neg h]

/-- On a valid track, the rebuild produces one tangent per keyframe. -/
theorem updateSplineTangents_length (a : AttributeAnimation)
    (h : isValid a = true) :
    (updateSplineTangents a).splineTangents.length = a.keyFrames.length := by
  unfold updateSplineTangents
  rw [if_neg (by simp [h])]
  simp [List.length_ofFn]

/-- For the six arithmetic kinds, `(v - v) * t` is exactly the zero value
of the kind, whatever `v` and `t` are. -/
theorem substractAndMultiply_self (vt : VariantType)
    (h : hasInterpArithmetic vt = true) (v : Variant) (t : ℚ) :
    substractAndMultiply vt v v t = zeroValueOf vt := by
  cases vt <;>
    simp_all [substractAndMultiply, zeroValueOf, hasInterpArithmetic]

/-- C3 (corrected): a kind change leaves the tangent cache untouched —
`SetValueType` neither clears the tangent array nor marks it dirty (it is
only discarded by the next rebuild inside `UpdateSplineTangents`). -/
theorem setValueType_preserves_tangent_cache :
    ∀ (a : AttributeAnimation) (vt : VariantType),
      (setValueType a vt).splineTangents = a.splineTangents ∧
      (setValueType a vt).splineTangentsDirty = a.splineTangentsDirty := by
  intro a vt
  unfold setValueType
  by_cases h : vt = a.valueType
  · rw [if_pos h]
    exact ⟨rfl, rfl⟩
  · rw [if_neg h]
    exact ⟨rfl, rfl⟩

/-- C3 counterexample: after a spline sample has rebuilt the cache of the
three-keyframe float track (giving three tangents, dirty flag clear),
changing the kind to Vector2 leaves the tangent array at size 3 — not
size 0 as the claim states. -/
theorem setValueType_keeps_stale_tangents :
    trackSplineFSampled.splineTangents.length = 3 ∧
    trackSplineFSampled.splineTangentsDirty = false ∧
    VariantType.vector2 ≠ trackSplineFSampled.valueType ∧
    (setValueType trackSplineFSampled .vector2).splineTangents.length = 3 := by
  exact ⟨rfl, rfl, by decide, rfl⟩

/-- C4 (confirmed): inserting a value whose kind differs from an
already-fixed track kind fails and returns the state completely
unchanged (keyframes, bounds, tangent cache and dirty flag included). -/
theorem setKeyFrame_type_mismatch_rejected :
    ∀ (a : AttributeAnimation) (t : ℚ) (v : Variant),
      a.valueType ≠ VariantType.none → v.getType ≠ a.valueType →
      setKeyFrame a t v = (false, a) := by
  intro a t v h1 h2
  unfold setKeyFrame
  rw [if_neg h1, if_pos h2]

/-- C4 witness: inserting a Vector2 value into the float track fails and
leaves the state unchanged. -/
theorem setKeyFrame_type_mismatch_rejected_witness :
    setKeyFrame trackFloat01 3 (.vector2 1 2) = (false, trackFloat01) :=
  setKeyFrame_type_mismatch_rejected trackFloat01 3 (.vector2 1 2)
    (by decide) (by decide)

/-- C9 (confirmed): changing the kind of a non-empty track to a different
kind clears all keyframes and resets the time bounds to the empty
sentinels (+infinity / -infinity). -/
theorem setValueType_clears_keyframes :
    ∀ (a : AttributeAnimation) (vt : VariantType),
      a.keyFrames ≠ [] → vt ≠ a.valueType →
      (setValueType a vt).keyFrames = [] ∧
      (setValueType a vt).beginTime = XTime.posInf ∧
      (setValueType a vt).endTime = XTime.negInf := by
  intro a vt _ h
  unfold setValueType
  rw [if_neg h]
  exact ⟨rfl, rfl, rfl⟩

/-- C9 witness: changing the float track's kind to Vector2 clears it and
resets its bounds. -/
theorem setValueType_clears_keyframes_witness :
    (setValueType trackFloat01 .vector2).keyFrames = [] ∧
    (setValueType trackFloat01 .vector2).beginTime = XTime.posInf ∧
    (setValueType trackFloat01 .vector2).endTime = XTime.negInf :=
  setValueType_clears_keyframes trackFloat01 .vector2 (by decide) (by decide)

/-! Sortedness preservation for the mutators. -/

/-- A kind change keeps the keyframes sorted (it clears them or leaves
them alone). -/
theorem setValueType_pairwise {a : AttributeAnimation} {vt : VariantType}
    (h : a.keyFrames.Pairwise (fun u v => u.time ≤ v.time)) :
    (setValueType a vt).keyFrames.Pairwise (fun u v => u.time ≤ v.time) := by
  unfold setValueType
  by_cases hc : vt = a.valueType
  · rw [if_pos hc]; exact h
  · rw [if_neg hc]; exact List.Pairwise.nil

/-- A successful typed insertion reduces to the shared insertion routine
on the unchanged keyframe list. -/
theorem setKeyFrame_success_eq {a : AttributeAnimation} {t : ℚ} {v : Variant}
    (h : v.getType = a.valueType) :
    setKeyFrame a t v = (true, setKeyFrameInsert a t v) := by
  unfold setKeyFrame
  by_cases h1 : a.valueType = VariantType.none
  · rw [if_pos h1]
    have hvt : setValueType a v.getType = a := by
      unfold setValueType
      rw [if_pos h]
    rw [hvt]
  · rw [if_neg h1, if_neg (by simp [h])]

/-- Any keyframe insertion keeps the keyframes sorted. -/
theorem setKeyFrame_pairwise {a : AttributeAnimation} {t : ℚ} {v : Variant}
    (h : a.keyFrames.Pairwise (fun u v => u.time ≤ v.time)) :
    (setKeyFrame a t v).2.keyFrames.Pairwise (fun u v => u.time ≤ v.time) := by
  unfold setKeyFrame
  by_cases h1 : a.valueType = VariantType.none
  · rw [if_pos h1]
    exact insertByTime_pairwise AttributeKeyFrame.time (setValueType_pairwise h)
  · rw [if_neg h1]
    by_cases h2 : v.getType ≠ a.valueType
    · rw [if_pos h2]
      exact h
    · rw [if_neg h2]
      exact insertByTime_pairwise AttributeKeyFrame.time h

/-- Any event insertion keeps the event frames sorted. -/
theorem setEventFrame_pairwise {a : AttributeAnimation} {t : ℚ} {ty : ℕ}
    {d : List (ℕ × Variant)}
    (h : a.eventFrames.Pairwise (fun u v => u.time ≤ v.time)) :
    (setEventFrame a t ty d).eventFrames.Pairwise (fun u v => u.time ≤ v.time) :=
  insertByTime_pairwise AttributeEventFrame.time h

/-- A kind change never touches the event frames. -/
theorem setValueType_eventFrames (a : AttributeAnimation) (vt : VariantType) :
    (setValueType a vt).eventFrames = a.eventFrames := by
  unfold setValueType
  by_cases h : vt = a.valueType
  · rw [if_pos h]
  · rw [if_neg h]

/-- Keyframe insertions never touch the event frames. -/
theorem setKeyFrame_eventFrames (a : AttributeAnimation) (t : ℚ) (v : Variant) :
    (setKeyFrame a t v).2.eventFrames = a.eventFrames := by
  unfold setKeyFrame
  by_cases h1 : a.valueType = VariantType.none
  · rw [if_pos h1]
    show (setKeyFrameInsert (setValueType a v.getType) t v).eventFrames = _
    show (setValueType a v.getType).eventFrames = _
    exact setValueType_eventFrames a v.getType
  · rw [if_neg h1]
    by_cases h2 : v.getType ≠ a.valueType
    · rw [if_pos h2]
    · rw [if_neg h2]
      rfl

/-- Folding keyframe insertions preserves sortedness. -/
theorem applyKeyOps_pairwise :
    ∀ (ops : List (ℚ × Variant)) (a : AttributeAnimation),
      a.keyFrames.Pairwise (fun u v => u.time ≤ v.time) →
      (applyKeyOps a ops).keyFrames.Pairwise (fun u v => u.time ≤ v.time) := by
  intro ops
  induction ops with
  | nil => intro a h; exact h
  | cons op rest ih =>
      intro a h
      exact ih (setKeyFrame a op.1 op.2).2 (setKeyFrame_pairwise h)

/-- Folding event insertions preserves sortedness. -/
theorem applyEventOps_pairwise :
    ∀ (evs : List (ℚ × ℕ × List (ℕ × Variant))) (a : AttributeAnimation),
      a.eventFrames.Pairwise (fun u v => u.time ≤ v.time) →
      (applyEventOps a evs).eventFrames.Pairwise (fun u v => u.time ≤ v.time) := by
  intro evs
  induction evs with
  | nil => intro a h; exact h
  | cons ev rest ih =>
      intro a h
      exact ih (setEventFrame a ev.1 ev.2.1 ev.2.2) (setEventFrame_pairwise h)

/-- C5 (confirmed): any sequence of insertions starting from a fresh
animation leaves the keyframe and event sequences sorted ascending by
time, and each individual successful insertion into a sorted track lands
after every entry whose time is at most the new time (hence after all
equal-time entries) and before the first strictly later entry. -/
theorem insertion_sorted_and_tiebreak :
    (∀ ops : List (ℚ × Variant),
      (applyKeyOps attributeAnimationInit ops).keyFrames.Pairwise
        (fun u v => u.time ≤ v.time)) ∧
    (∀ evs : List (ℚ × ℕ × List (ℕ × Variant)),
      (applyEventOps attributeAnimationInit evs).eventFrames.Pairwise
        (fun u v => u.time ≤ v.time)) ∧
    (∀ (a : AttributeAnimation) (t : ℚ) (v : Variant),
      a.keyFrames.Pairwise (fun u v => u.time ≤ v.time) →
      v.getType = a.valueType →
      (setKeyFrame a t v).1 = true ∧
      (setKeyFrame a t v).2.keyFrames =
        a.keyFrames.takeWhile (fun k => decide (k.time ≤ t)) ++
          ⟨t, v⟩ :: a.keyFrames.dropWhile (fun k => decide (k.time ≤ t))) ∧
    (∀ (a : AttributeAnimation) (t : ℚ) (ty : ℕ) (d : List (ℕ × Variant)),
      a.eventFrames.Pairwise (fun u v => u.time ≤ v.time) →
      (setEventFrame a t ty d).eventFrames =
        a.eventFrames.takeWhile (fun f => decide (f.time ≤ t)) ++
          ⟨t, ty, d⟩ :: a.eventFrames.dropWhile (fun f => decide (f.time ≤ t))) := by
  refine ⟨?_, ?_, ?_, ?_⟩
  · intro ops
    exact applyKeyOps_pairwise ops attributeAnimationInit List.Pairwise.nil
  · intro evs
    exact applyEventOps_pairwise evs attributeAnimationInit List.Pairwise.nil
  · intro a t v hl hv
    rw [setKeyFrame_success_eq hv]
    refine ⟨rfl, ?_⟩
    show insertByTime AttributeKeyFrame.time ⟨t, v⟩ a.keyFrames = _
    exact insertByTime_eq_takeWhile AttributeKeyFrame.time hl
  · intro a t ty d hl
    show insertByTime AttributeEventFrame.time ⟨t, ty, d⟩ a.eventFrames = _
    exact insertByTime_eq_takeWhile AttributeEventFrame.time hl

/-- C5 witness: a shuffled insertion sequence ends sorted, and an
equal-time insertion into the float track lands after the existing
equal-time entry and before the strictly later one. -/
theorem insertion_sorted_and_tiebreak_witness :
    ((applyKeyOps attributeAnimationInit
      [(1, .float 1), (0, .float 0), (1, .float 2)]).keyFrames.Pairwise
        (fun u v => u.time ≤ v.time)) ∧
    ((applyEventOps attributeAnimationInit
      [(2, 5, []), (1, 6, [])]).eventFrames.Pairwise
        (fun u v => u.time ≤ v.time)) ∧
    ((setKeyFrame trackFloat01 0 (.float 7)).1 = true ∧
      (setKeyFrame trackFloat01 0 (.float 7)).2.keyFrames =
        trackFloat01.keyFrames.takeWhile (fun k => decide (k.time ≤ 0)) ++
          ⟨0, .float 7⟩ ::
            trackFloat01.keyFrames.dropWhile (fun k => decide (k.time ≤ 0))) ∧
    ((setEventFrame trackFloat01 2 99 []).eventFrames =
      trackFloat01.eventFrames.takeWhile (fun f => decide (f.time ≤ 2)) ++
        ⟨2, 99, []⟩ ::
          trackFloat01.eventFrames.dropWhile (fun f => decide (f.time ≤ 2))) :=
  ⟨insertion_sorted_and_tiebreak.1 _,
    insertion_sorted_and_tiebreak.2.1 _,
    insertion_sorted_and_tiebreak.2.2.1 trackFloat01 0 (.float 7)
      (by decide) rfl,
    insertion_sorted_and_tiebreak.2.2.2 trackFloat01 2 99 [] (by decide)⟩

/-- C8 (confirmed): on a sorted event track the range query returns
exactly the entries with `b ≤ time < e` (half-open), in their stored —
ascending — order; concretely, over events at times 1/2, 1, 2, 3, 4, the
query over `[1, 3)` returns exactly the entries at times 1 and 2. -/
theorem event_query_half_open :
    (∀ (l : List AttributeEventFrame) (b e : ℚ),
      l.Pairwise (fun u v => u.time ≤ v.time) →
      getEventFrames l b e =
        l.filter (fun f => decide (b ≤ f.time ∧ f.time < e))) ∧
    getEventFrames trackEvents.eventFrames 1 3 =
      [⟨1, 11, []⟩, ⟨2, 12, []⟩] := by
  constructor
  · intro l b e hl
    induction l with
    | nil => rfl
    | cons f fs ih =>
        rcases List.pairwise_cons.mp hl with ⟨hf, hfs⟩
        by_cases he : e ≤ f.time
        · have hnil : fs.filter (fun g => decide (b ≤ g.time ∧ g.time < e)) = [] := by
            refine List.filter_eq_nil_iff.mpr ?_
            intro g hg
            simp only [decide_eq_true_eq, not_and, not_lt]
            intro _
            exact he.trans (hf g hg)
          simp only [getEventFrames, if_pos he, List.filter_cons]
          rw [hnil]
          simp [not_lt.mpr he]
        · have hfe : f.time < e := lt_of_not_le he
          by_cases hb : b ≤ f.time
          · simp only [getEventFrames, if_neg he, List.filter_cons]
            rw [ih hfs]
            simp [hb, hfe]
          · simp only [getEventFrames, if_neg he, List.filter_cons]
            rw [ih hfs]
            simp [hb]
  · norm_num [trackEvents, attributeAnimationInit, getEventFrames]

/-- C8 witness: the filter description instantiated on a concrete sorted
integer-time event list. -/
theorem event_query_half_open_witness :
    getEventFrames [⟨1, 11, []⟩, ⟨2, 12, []⟩, ⟨4, 14, []⟩] 1 3 =
      List.filter (fun f => decide (1 ≤ f.time ∧ f.time < 3))
        [(⟨1, 11, []⟩ : AttributeEventFrame), ⟨2, 12, []⟩, ⟨4, 14, []⟩] :=
  event_query_half_open.1 [⟨1, 11, []⟩, ⟨2, 12, []⟩, ⟨4, 14, []⟩] 1 3 (by decide)

/-- An indexed lookup that returns a value implies the index is in
bounds. -/
theorem getElem?_some_lt {α : Type} {l : List α} {i : ℕ} {x : α}
    (h : l[i]? = Option.some x) : i < l.length := by
  by_contra hc
  rw [List.getElem?_eq_none (by omega)] at h
  exact Option.noConfusion h

/-- An indexed lookup that returns a value pins down the positional
element. -/
theorem getElem?_some_get {α : Type} {l : List α} {i : ℕ} {x : α}
    (h : l[i]? = Option.some x) (hi : i < l.length) : l.get ⟨i, hi⟩ = x := by
  have h2 := List.getElem?_eq_getElem hi
  rw [h] at h2
  simp only [List.get_eq_getElem]
  exact (Option.some_inj.mp h2).symm

/-- C7 (confirmed): a Linear-method sample with `t` inside the bracket
`[time(i-1), time(i))` of a sorted interpolatable track is the per-kind
linear blend of the bracketing values at the local parameter
`u = (t - left.time) / (right.time - left.time)`; concretely, the float
track (0 → 0), (1 → 10) sampled at 1/2 yields 5. -/
theorem linear_sample_blend :
    (∀ (a : AttributeAnimation) (t : ℚ) (i : ℕ) (k1 k2 : AttributeKeyFrame),
      a.keyFrames.Pairwise (fun u v => u.time ≤ v.time) →
      a.interpolationMethod = .linear →
      a.isInterpolatable = true →
      1 ≤ i →
      a.keyFrames[i - 1]? = Option.some k1 →
      a.keyFrames[i]? = Option.some k2 →
      k1.time ≤ t → t < k2.time →
      (updateAttributeValue a t).1 =
        Option.some (linearInterpolationVal a.valueType k1.value k2.value
          ((t - k1.time) / (k2.time - k1.time)))) ∧
    (updateAttributeValue trackFloat01 (1 / 2)).1 =
      Option.some (Variant.float 5) := by
  constructor
  · intro a t i k1 k2 hl hm hip h1 hk1 hk2 hle hlt
    have hi : i < a.keyFrames.length := getElem?_some_lt hk2
    have hidx : bracketIndexFrom a.keyFrames t 1 = i := by
      refine bracketIndexFrom_inner hl h1 hi ?_ ?_
      · rw [getElem?_some_get hk1 (by omega)]
        exact hle
      · rw [getElem?_some_get hk2 hi]
        exact hlt
    have hcond : ¬(a.keyFrames.length ≤ bracketIndexFrom a.keyFrames t 1 ∨
        a.isInterpolatable = false) := by
      rw [hidx, hip]
      simp
      omega
    rw [updateAttributeValue_linear hcond hm]
    simp only [hidx]
    simp only [linearInterpolationIdx, hk1, hk2]
  · norm_num [trackFloat01, updateAttributeValue, bracketIndexFrom, bracketScan,
      linearInterpolationIdx, linearInterpolationVal, lerpQ, Variant.getFloat]

/-- C7 witness: the general blend description instantiated at `t = 0`
inside the first bracket of the float track (0 → 0), (1 → 10). -/
theorem linear_sample_blend_witness :
    (updateAttributeValue trackFloat01 0).1 =
      Option.some (linearInterpolationVal VariantType.float (Variant.float 0)
        (Variant.float 10) ((0 - 0) / (1 - 0))) :=
  linear_sample_blend.1 trackFloat01 0 1 ⟨0, .float 0⟩ ⟨1, .float 10⟩
    (by decide) rfl rfl (by decide) rfl rfl (by decide) (by decide)

/-- Explicit form of the rebuilt tangent array on a valid track. -/
theorem updateSplineTangents_tangents_eq (a : AttributeAnimation)
    (hv : isValid a = true) :
    (updateSplineTangents a).splineTangents =
      List.ofFn (fun i : Fin a.keyFrames.length =>
        if i.val = 0 ∨ i.val = a.keyFrames.length - 1 then
          substractAndMultiply a.valueType
            ((Option.map AttributeKeyFrame.value a.keyFrames[0]?).getD Variant.none)
            ((Option.map AttributeKeyFrame.value a.keyFrames[0]?).getD Variant.none)
            a.splineTension
        else
          substractAndMultiply a.valueType
            ((Option.map AttributeKeyFrame.value a.keyFrames[i.val + 1]?).getD
              Variant.none)
            ((Option.map AttributeKeyFrame.value a.keyFrames[i.val - 1]?).getD
              Variant.none)
            a.splineTension) := by
  unfold updateSplineTangents
  rw [if_neg (by simp [hv])]

/-- Any track with at least three keyframes passes the validity check,
whatever its method. -/
theorem isValid_of_three (a : AttributeAnimation)
    (h3 : 3 ≤ a.keyFrames.length) : isValid a = true := by
  unfold isValid
  cases hm : a.interpolationMethod <;> simp [hm] <;> omega

/-- C6 (corrected): on a track with at least three keyframes whose kind
has the per-kind subtract/scale arithmetic (the six interpolation kinds),
the rebuild produces one tangent per keyframe, clears the dirty flag, sets
each interior tangent `i` to `(keyframe[i+1].value - keyframe[i-1].value) *
tension`, and forces both endpoint tangents to exactly the zero value of
the track's kind, regardless of tension. (For a kind without that
arithmetic the degenerate endpoint computation yields the empty sentinel
instead of the kind's zero value — see the counterexample.) -/
theorem spline_tangent_rebuild :
    ∀ a : AttributeAnimation,
      3 ≤ a.keyFrames.length →
      hasInterpArithmetic a.valueType = true →
      (updateSplineTangents a).splineTangents.length = a.keyFrames.length ∧
      (updateSplineTangents a).splineTangentsDirty = false ∧
      (updateSplineTangents a).splineTangents[0]? =
        Option.some (zeroValueOf a.valueType) ∧
      (updateSplineTangents a).splineTangents[a.keyFrames.length - 1]? =
        Option.some (zeroValueOf a.valueType) ∧
      (∀ (i : ℕ) (k1 k2 : AttributeKeyFrame), 1 ≤ i →
        i + 1 < a.keyFrames.length →
        a.keyFrames[i - 1]? = Option.some k1 →
        a.keyFrames[i + 1]? = Option.some k2 →
        (updateSplineTangents a).splineTangents[i]? =
          Option.some (substractAndMultiply a.valueType k2.value k1.value
            a.splineTension)) := by
  intro a h3 harith
  have hv : isValid a = true := isValid_of_three a h3
  have htan := updateSplineTangents_tangents_eq a hv
  have hlen : (updateSplineTangents a).splineTangents.length =
      a.keyFrames.length := by
    rw [htan, List.length_ofFn]
  refine ⟨hlen, ?_, ?_, ?_, ?_⟩
  · unfold updateSplineTangents
    rw [if_neg (by simp [hv])]
  · rw [htan]
    rw [List.getElem?_eq_getElem (by rw [List.length_ofFn]; omega)]
    rw [List.getElem_ofFn]
    rw [if_pos (Or.inl rfl)]
    exact congrArg Option.some
      (substractAndMultiply_self a.valueType harith _ a.splineTension)
  · rw [htan]
    rw [List.getElem?_eq_getElem (by rw [List.length_ofFn]; omega)]
    rw [List.getElem_ofFn]
    rw [if_pos (Or.inr rfl)]
    exact congrArg Option.some
      (substractAndMultiply_self a.valueType harith _ a.splineTension)
  · intro i k1 k2 hi1 hi2 hk1 hk2
    rw [htan]
    rw [List.getElem?_eq_getElem (by rw [List.length_ofFn]; omega)]
    rw [List.getElem_ofFn]
    rw [if_neg (by simp only [Fin.val_mk]; omega)]
    rw [hk1, hk2]
    rfl

/-- C6 counterexample: rebuilding the tangent cache of a three-keyframe
IntRect track (a kind without subtract/scale arithmetic) stores the empty
sentinel at the endpoints, which is not the zero value of the IntRect
kind. -/
theorem intRect_rebuild_endpoint_not_zero :
    trackIntRect.keyFrames.length = 3 ∧
    (updateSplineTangents trackIntRect).splineTangents[0]? =
      Option.some Variant.none ∧
    Variant.none ≠ zeroValueOf trackIntRect.valueType := by
  exact ⟨rfl, rfl, by decide⟩

/-- C6 witness: the rebuild description instantiated on the float spline
track (0 → 0), (2 → 2), (4 → 0). -/
theorem spline_tangent_rebuild_witness :
    (updateSplineTangents trackSplineF).splineTangents.length = 3 ∧
    (updateSplineTangents trackSplineF).splineTangents[0]? =
      Option.some (zeroValueOf VariantType.float) ∧
    (updateSplineTangents trackSplineF).splineTangents[2]? =
      Option.some (zeroValueOf VariantType.float) ∧
    (updateSplineTangents trackSplineF).splineTangents[1]? =
      Option.some (substractAndMultiply VariantType.float (Variant.float 0)
        (Variant.float 0) trackSplineF.splineTension) := by
  have h := spline_tangent_rebuild trackSplineF (by decide) (by decide)
  exact ⟨(h.1).trans rfl, h.2.2.1, h.2.2.2.1, h.2.2.2.2 1 ⟨0, .float 0⟩
    ⟨4, .float 0⟩ (by decide) (by decide) rfl rfl⟩

/-- Every in-bounds index has a successful lookup. -/
theorem getElem?_exists_of_lt {α : Type} {l : List α} {i : ℕ}
    (h : i < l.length) : ∃ x, l[i]? = Option.some x :=
  ⟨_, List.getElem?_eq_getElem h⟩

/-- The bracket search from index 1 stays within `[1, length]` on a
non-empty track. -/
theorem bracketIndexFrom_bounds {l : List AttributeKeyFrame} {t : ℚ}
    (h : l ≠ []) :
    1 ≤ bracketIndexFrom l t 1 ∧ bracketIndexFrom l t 1 ≤ l.length := by
  unfold bracketIndexFrom
  refine ⟨bracketScan_ge t _ 1, ?_⟩
  have hle := bracketScan_le t (l.drop 1) 1
  have hlen : 1 ≤ l.length := List.length_pos.mpr h
  rw [List.length_drop] at hle
  omega

/-- Evaluation of the spline branch when the cache is dirty and all four
lookups on the rebuilt state succeed. -/
theorem splineInterpolation_dirty_eval {a : AttributeAnimation} {i1 i2 : ℕ}
    {t : ℚ} {k1 k2 : AttributeKeyFrame} {tan1 tan2 : Variant}
    (hd : a.splineTangentsDirty = true)
    (hk1 : (updateSplineTangents a).keyFrames[i1]? = Option.some k1)
    (hk2 : (updateSplineTangents a).keyFrames[i2]? = Option.some k2)
    (ht1 : (updateSplineTangents a).splineTangents[i1]? = Option.some tan1)
    (ht2 : (updateSplineTangents a).splineTangents[i2]? = Option.some tan2) :
    splineInterpolation a i1 i2 t =
      (Option.some (splineEval (updateSplineTangents a).valueType k1.value
        k2.value tan1 tan2 ((t - k1.time) / (k2.time - k1.time))),
        updateSplineTangents a) := by
  unfold splineInterpolation
  rw [hd]
  simp only [if_true]
  rw [hk1, hk2, ht1, ht2]

/-- C2 (corrected): a Rotation (quaternion) curve under the Spline method
does have spline arithmetic in the source — sampling strictly between two
keyframes of a sorted three-or-more-keyframe quaternion spline track
produces a quaternion-kinded value (the componentwise Hermite blend), not
the empty sentinel and not an out-of-bounds failure; no
`InterpolationError` is signalled for Rotation. -/
theorem rotation_spline_blends :
    ∀ (a : AttributeAnimation) (t : ℚ) (i : ℕ) (k1 k2 : AttributeKeyFrame),
      a.keyFrames.Pairwise (fun u v => u.time ≤ v.time) →
      a.interpolationMethod = .spline →
      a.valueType = .quaternion →
      a.isInterpolatable = true →
      a.splineTangentsDirty = true →
      3 ≤ a.keyFrames.length →
      1 ≤ i →
      a.keyFrames[i - 1]? = Option.some k1 →
      a.keyFrames[i]? = Option.some k2 →
      k1.time ≤ t → t < k2.time →
      (Option.map Variant.getType (updateAttributeValue a t).1 =
          Option.some VariantType.quaternion ∧
        (updateAttributeValue a t).1 ≠ Option.some Variant.none ∧
        (updateAttributeValue a t).1 ≠ Option.none) := by
  intro a t i k1 k2 hl hm hq hip hd h3 h1 hk1 hk2 hle hlt
  have hi : i < a.keyFrames.length := getElem?_some_lt hk2
  have hidx : bracketIndexFrom a.keyFrames t 1 = i := by
    refine bracketIndexFrom_inner hl h1 hi ?_ ?_
    · rw [getElem?_some_get hk1 (by omega)]
      exact hle
    · rw [getElem?_some_get hk2 hi]
      exact hlt
  have hcond : ¬(a.keyFrames.length ≤ bracketIndexFrom a.keyFrames t 1 ∨
      a.isInterpolatable = false) := by
    rw [hidx, hip]
    simp
    omega
  have hv : isValid a = true := by
    unfold isValid
    simp [hm]
    omega
  have htlen : (updateSplineTangents a).splineTangents.length =
      a.keyFrames.length := updateSplineTangents_length a hv
  obtain ⟨tan1, ht1⟩ :
      ∃ x, (updateSplineTangents a).splineTangents[i - 1]? = Option.some x :=
    getElem?_exists_of_lt (by omega)
  obtain ⟨tan2, ht2⟩ :
      ∃ x, (updateSplineTangents a).splineTangents[i]? = Option.some x :=
    getElem?_exists_of_lt (by omega)
  have hk1' : (updateSplineTangents a).keyFrames[i - 1]? = Option.some k1 := by
    rw [updateSplineTangents_keyFrames]
    exact hk1
  have hk2' : (updateSplineTangents a).keyFrames[i]? = Option.some k2 := by
    rw [updateSplineTangents_keyFrames]
    exact hk2
  rw [updateAttributeValue_spline hcond hm]
  simp only [hidx]
  rw [splineInterpolation_dirty_eval hd hk1' hk2' ht1 ht2]
  rw [updateSplineTangents_valueType, hq]
  refine ⟨rfl, ?_, ?_⟩
  · intro hbad
    exact Variant.noConfusion (Option.some_inj.mp hbad)
  · intro hbad
    exact Option.noConfusion hbad

/-- C2 counterexample: sampling the concrete quaternion spline track
strictly between its first two keyframes yields neither the empty sentinel
value nor a lookup failure — contradicting the claim that Rotation under
Spline signals `InterpolationError` and yields the empty sentinel. -/
theorem rotation_spline_no_error_concrete :
    trackQuatSpline.valueType = VariantType.quaternion ∧
    trackQuatSpline.interpolationMethod = .spline ∧
    (updateAttributeValue trackQuatSpline 1).1 ≠ Option.some Variant.none ∧
    (updateAttributeValue trackQuatSpline 1).1 ≠ Option.none := by
  exact ⟨rfl, rfl, by decide, by decide⟩

/-- C2 witness: the blend description instantiated on the concrete
quaternion spline track at t = 1. -/
theorem rotation_spline_blends_witness :
    Option.map Variant.getType (updateAttributeValue trackQuatSpline 1).1 =
        Option.some VariantType.quaternion ∧
      (updateAttributeValue trackQuatSpline 1).1 ≠ Option.some Variant.none ∧
      (updateAttributeValue trackQuatSpline 1).1 ≠ Option.none :=
  rotation_spline_blends trackQuatSpline 1 1 ⟨0, .quaternion 1 0 0 0⟩
    ⟨2, .quaternion 0 1 0 0⟩ (by decide) rfl rfl rfl rfl (by decide)
    (by decide) rfl rfl (by decide) (by decide)

/-- C10 (corrected): index safety of the sampler. On a non-empty track —
with, for the Spline method, at least three keyframes and a dirty cache so
the rebuild runs — every keyframe and tangent access is in bounds and the
sample produces a value; the rebuilt tangent array has exactly one entry
per keyframe; on an empty track every sample performs an out-of-bounds
access; and with the Spline method and only two keyframes the
out-of-bounds tangent access occurs when sampling strictly between the
keyframes (but not at or beyond the last keyframe, where the hold branch
stays in bounds — see the counterexample). -/
theorem sampler_index_safety :
    (∀ (a : AttributeAnimation) (t : ℚ),
      a.keyFrames ≠ [] →
      (a.interpolationMethod = .spline →
        3 ≤ a.keyFrames.length ∧ a.splineTangentsDirty = true) →
      (updateAttributeValue a t).1.isSome = true) ∧
    (∀ a : AttributeAnimation, isValid a = true →
      (updateSplineTangents a).splineTangents.length = a.keyFrames.length) ∧
    (∀ (a : AttributeAnimation) (t : ℚ), a.keyFrames = [] →
      (updateAttributeValue a t).1 = Option.none) ∧
    (updateAttributeValue trackSplineTwo 1).1 = Option.none := by
  refine ⟨?_, ?_, ?_, by decide⟩
  · intro a t hne hsp
    obtain ⟨hge, hle⟩ := bracketIndexFrom_bounds (t := t) hne
    have hpos : 0 < a.keyFrames.length := List.length_pos.mpr hne
    by_cases hcond : a.keyFrames.length ≤ bracketIndexFrom a.keyFrames t 1 ∨
        a.isInterpolatable = false
    · rw [updateAttributeValue_hold hcond]
      obtain ⟨k, hk⟩ :
          ∃ x, a.keyFrames[bracketIndexFrom a.keyFrames t 1 - 1]? = Option.some x :=
        getElem?_exists_of_lt (by omega)
      simp [hk]
    · have hil : bracketIndexFrom a.keyFrames t 1 < a.keyFrames.length := by
        push_neg at hcond
        omega
      cases hm : a.interpolationMethod with
      | linear =>
          rw [updateAttributeValue_linear hcond hm]
          obtain ⟨k1, hk1⟩ :
              ∃ x, a.keyFrames[bracketIndexFrom a.keyFrames t 1 - 1]? =
                Option.some x := getElem?_exists_of_lt (by omega)
          obtain ⟨k2, hk2⟩ :
              ∃ x, a.keyFrames[bracketIndexFrom a.keyFrames t 1]? =
                Option.some x := getElem?_exists_of_lt hil
          simp [linearInterpolationIdx, hk1, hk2]
      | spline =>
          rcases hsp hm with ⟨h3, hd⟩
          have hv : isValid a = true := by
            unfold isValid
            simp [hm]
            omega
          have htlen : (updateSplineTangents a).splineTangents.length =
              a.keyFrames.length := updateSplineTangents_length a hv
          obtain ⟨k1, hk1⟩ :
              ∃ x, (updateSplineTangents a).keyFrames[bracketIndexFrom
                a.keyFrames t 1 - 1]? = Option.some x :=
            getElem?_exists_of_lt (by rw [updateSplineTangents_keyFrames]; omega)
          obtain ⟨k2, hk2⟩ :
              ∃ x, (updateSplineTangents a).keyFrames[bracketIndexFrom
                a.keyFrames t 1]? = Option.some x :=
            getElem?_exists_of_lt (by rw [updateSplineTangents_keyFrames]; omega)
          obtain ⟨tan1, ht1⟩ :
              ∃ x, (updateSplineTangents a).splineTangents[bracketIndexFrom
                a.keyFrames t 1 - 1]? = Option.some x :=
            getElem?_exists_of_lt (by omega)
          obtain ⟨tan2, ht2⟩ :
              ∃ x, (updateSplineTangents a).splineTangents[bracketIndexFrom
                a.keyFrames t 1]? = Option.some x :=
            getElem?_exists_of_lt (by omega)
          rw [updateAttributeValue_spline hcond hm]
          rw [splineInterpolation_dirty_eval hd hk1 hk2 ht1 ht2]
          rfl
  · intro a hv
    exact updateSplineTangents_length a hv
  · intro a t hkf
    have hidx : bracketIndexFrom a.keyFrames t 1 = 1 := by
      unfold bracketIndexFrom
      rw [hkf]
      rfl
    have hcond : a.keyFrames.length ≤ bracketIndexFrom a.keyFrames t 1 ∨
        a.isInterpolatable = false := by
      rw [hidx, hkf]
      simp
    rw [updateAttributeValue_hold hcond]
    rw [hkf]
    rfl

/-- C10 counterexample: on a two-keyframe Spline track the sampler does
not always go out of bounds — sampling at t = 5, beyond the last keyframe,
takes the hold branch and returns the last value from an in-bounds
access. -/
theorem spline_two_hold_in_bounds :
    trackSplineTwo.interpolationMethod = .spline ∧
    trackSplineTwo.keyFrames.length = 2 ∧
    (updateAttributeValue trackSplineTwo 5).1 = Option.some (Variant.float 2) := by
  exact ⟨rfl, rfl, by decide⟩

/-- C10 witness: the safety statement instantiated on the concrete float
spline track, the tangent-count statement on the same track, and the
empty-track failure on a float-kinded empty animation. -/
theorem sampler_index_safety_witness :
    (updateAttributeValue trackSplineF 1).1.isSome = true ∧
    (updateSplineTangents trackSplineF).splineTangents.length =
      trackSplineF.keyFrames.length ∧
    (updateAttributeValue
      { attributeAnimationInit with valueType := .float } 0).1 = Option.none :=
  ⟨sampler_index_safety.1 trackSplineF 1 (by decide) (fun _ => ⟨by decide, rfl⟩),
    sampler_index_safety.2.1 trackSplineF rfl,
    sampler_index_safety.2.2.1
      { attributeAnimationInit with valueType := .float } 0 rfl⟩

end Urho3D
